import Mathlib

/-!
Verification of the multi-stage retrieval pipeline of
`core/rag_pipeline.py` (class `AdvancedRAGPipeline`) and the citation
attachment in `agents/sec_researcher.py` (`SECResearcherAgent.analyze_risks`).

Shallow embedding conventions:
* Python floats (relevance scores) are modelled as `Rat`: only their order
  matters to the pipeline (sorting, max), never rounding.
* Python dicts used as passage metadata are modelled as association lists
  `List (String × String)`; `dict.get` is `List.lookup`.
* The external capabilities (vector store similarity search, BM25 scoring,
  cross-encoder prediction, LLM generation) are oracle fields of the
  `Pipeline` structure: arbitrary pure functions, constrained only by the
  hypotheses a theorem states.
* Python's stable `sorted(..., reverse=True)` is modelled with
  `List.insertionSort`, which is stable. `np.argsort` is also modelled
  with it; numpy's default argsort is deterministic but only stable in
  its small-array insertion-sort regime, see the comment on `argsort`.
* Fallible code returns `PyResult` (ok or a raised exception).
* `np.argsort(s)[-k:]` is Python slicing: for `k = 0` it yields the whole
  list, otherwise the last `min k n` elements (`pySliceLast`).
-/

/-- A stored document/passage: `content` plus a metadata dict
(`core/rag_pipeline.py` builds BM25 over `doc.content`; `analyze_risks`
reads `metadata.get` keys). -/
structure Passage where
  content : String
  metadata : List (String × String)
deriving DecidableEq

/-- `RetrievalResult` dataclass of `core/rag_pipeline.py`. -/
structure RetrievalResult where
  content : String
  metadata : List (String × String)
  score : Rat
  source : String
deriving DecidableEq

/-- Passage identity used for deduplication: content plus metadata
(the value-equality identity key of the spec). -/
def RetrievalResult.identity (r : RetrievalResult) : String × List (String × String) :=
  (r.content, r.metadata)

/-- The pipeline state: the corpus plus the external oracles
(`vector_store.similarity_search`, `bm25.get_scores` composed with query
tokenization, `reranker.predict` on a single pair, and the text
generation capability `decompose_query` is intended to consult — the
source raises before ever reaching it). -/
structure Pipeline where
  documents : List Passage
  similaritySearch : String → Nat → List Passage
  bm25Scores : String → List Rat
  predict : String → String → Rat
  gen : String → Option (List String)

/-- Outcome of running a Python function that may raise. -/
inductive PyResult (α : Type) where
  | ok : α → PyResult α
  | exn : String → PyResult α
deriving DecidableEq

/-- `AdvancedRAGPipeline.decompose_query` as written in src: it builds a
prompt, never calls the LLM, and executes `return sub_queries` where
`sub_queries` was never assigned — so it raises `NameError` on every
input. -/
def decompose_query (_query : String) : PyResult (List String) :=
  PyResult.exn "NameError: name sub_queries is not defined"

/-- Stable ascending argsort of a score list, modelling `np.argsort`.
Numpy's default argsort is guaranteed deterministic but is only stable
(equal scores keeping ascending index order) in its small-array
insertion-sort regime; the model fixes the stable order, which is exact
for the small concrete corpora evaluated here, and every theorem below
except the tie-order counterexample of C7 (a 2-element array, inside the
insertion-sort regime) is insensitive to the order among ties. -/
def argsort (scores : List Rat) : List Nat :=
  List.insertionSort (fun i j => scores.getD i 0 ≤ scores.getD j 0) (List.range scores.length)

/-- Python slice `l[-k:]`: the whole list when `k = 0`, else the last
`min k n` elements. -/
def pySliceLast (l : List α) (k : Nat) : List α :=
  if k = 0 then l else l.drop (l.length - k)

/-- `np.argsort(bm25_scores)[-k:][::-1]` of `hybrid_search`: indices of
the top-`k` sparse candidates in descending score order. -/
def sparseTopKIndices (scores : List Rat) (k : Nat) : List Nat :=
  (pySliceLast (argsort scores) k).reverse

/-- `sparse_results = [self.documents[i] for i in sparse_indices]`. -/
def sparsePassages (P : Pipeline) (query : String) (k : Nat) : List Passage :=
  (sparseTopKIndices (P.bm25Scores query) k).map (fun i => P.documents.getD i ⟨"", []⟩)

/-- Wrap a passage as a `RetrievalResult` with a given source tag; no
score is computed at the merge stage (spec §4.3), so the score field is a
placeholder `0` until re-ranking overwrites it. -/
def passageToResult (tag : String) (p : Passage) : RetrievalResult :=
  { content := p.content, metadata := p.metadata, score := 0, source := tag }

/-- First-occurrence deduplication on passage identity with an explicit
`seen` accumulator (the dict-keyed dedup of the spec, request-scoped). -/
def dedupAux (seen : List (String × List (String × String))) :
    List RetrievalResult → List RetrievalResult
  | [] => []
  | r :: rs =>
    if r.identity ∈ seen then dedupAux seen rs
    else r :: dedupAux (r.identity :: seen) rs

/-- Modelled from the spec: `_merge_results` is called by `hybrid_search`
but defined nowhere under src/. Per §4.3: concatenate the dense and
sparse candidate lists, tag each with its source kind, tag a passage
appearing in both lists as `hybrid`, and deduplicate on passage identity
keeping the first (dense-sourced) copy. -/
def merge_results (dense sparse : List Passage) : List RetrievalResult :=
  let denseTagged := dense.map (fun p =>
    passageToResult (if p ∈ sparse then "hybrid" else "dense") p)
  let sparseTagged := sparse.map (fun p =>
    passageToResult (if p ∈ dense then "hybrid" else "sparse") p)
  dedupAux [] (denseTagged ++ sparseTagged)

/-- `AdvancedRAGPipeline.hybrid_search`: dense candidates from the vector
store, sparse candidates from BM25 top-k, then merge and deduplicate. -/
def hybrid_search (P : Pipeline) (query : String) (k : Nat) : List RetrievalResult :=
  merge_results (P.similaritySearch query k) (sparsePassages P query k)

/-- The score-overwriting loop of `rerank`: each candidate's `score`
field is replaced by the cross-encoder score of `(query, content)`. -/
def assignScores (predict : String → String → Rat) (query : String)
    (results : List RetrievalResult) : List RetrievalResult :=
  results.map (fun r => { r with score := predict query r.content })

/-- Non-increasing-score order: the relation under which Python's
`sorted(results, key=lambda x: x.score, reverse=True)` sorts (stably). -/
def scoreGE (a b : RetrievalResult) : Prop := b.score ≤ a.score

instance : DecidableRel scoreGE := fun a b => inferInstanceAs (Decidable (b.score ≤ a.score))

instance : IsTotal RetrievalResult scoreGE := ⟨fun a b => le_total b.score a.score⟩

instance : IsTrans RetrievalResult scoreGE := ⟨fun _ _ _ h1 h2 => le_trans h2 h1⟩

/-- `AdvancedRAGPipeline.rerank`: overwrite every score with the
cross-encoder prediction, then stable-sort descending by score. -/
def rerank (predict : String → String → Rat) (query : String)
    (results : List RetrievalResult) : List RetrievalResult :=
  List.insertionSort scoreGE (assignScores predict query results)

/-- `AdvancedRAGPipeline.compare_across_years`: one `hybrid_search` with
`k = 5` per year over the year-annotated query; the Python dict (insertion
ordered) is modelled as the association list in loop order. Note the
source performs no re-ranking here. -/
def compare_across_years (P : Pipeline) (query : String) (years : List String) :
    List (String × List RetrievalResult) :=
  years.map (fun year =>
    (year, hybrid_search P (query ++ " (year: " ++ year ++ ")") 5))

/-- Best-scoring occurrence of `r.identity`: scan `l`, replacing the
current best whenever a same-identity element has strictly higher score
(so the earliest maximal occurrence is kept). -/
def bestFor (r : RetrievalResult) : List RetrievalResult → RetrievalResult
  | [] => r
  | x :: xs => if x.identity = r.identity ∧ r.score < x.score then bestFor x xs else bestFor r xs

/-- Identity-keyed dedup keeping the best-scoring occurrence: for the
first occurrence of each identity in the remaining list, emit the best
occurrence of that identity in `all`. -/
def dedupBestAux (all : List RetrievalResult)
    (seen : List (String × List (String × String))) :
    List RetrievalResult → List RetrievalResult
  | [] => []
  | r :: rs =>
    if r.identity ∈ seen then dedupBestAux all seen rs
    else bestFor r all :: dedupBestAux all (r.identity :: seen) rs

/-- Keep, per passage identity, the occurrence with the highest re-rank
score (mapping from identity to best-scoring result seen, spec §9). -/
def dedupKeepBest (pool : List RetrievalResult) : List RetrievalResult :=
  dedupBestAux pool [] pool

/-- Modelled from the spec: `_deduplicate` is called by `retrieve` but
defined nowhere under src/. Per §4.6: deduplicate the pooled results on
passage identity keeping the higher-scoring occurrence, then sort the
deduplicated pool descending by score (stable). -/
def deduplicate (pool : List RetrievalResult) : List RetrievalResult :=
  List.insertionSort scoreGE (dedupKeepBest pool)

/-- `AdvancedRAGPipeline.retrieve`, faithful to src including its error
path: the first statement calls the defective `decompose_query`, whose
`NameError` propagates, so the rest of the body — per sub-query
`hybrid_search` with `k = 20`, re-rank, keep the top 5, pool, the
(spec-modelled, absent from src) `_deduplicate`, and the final `[:10]`
truncation — only runs in the unreachable success branch. The `strategy`
argument is accepted and never read, exactly as in src. -/
def retrieve (P : Pipeline) (query : String) (_strategy : String) :
    PyResult (List RetrievalResult) :=
  match decompose_query query with
  | PyResult.exn e => PyResult.exn e
  | PyResult.ok sub_queries =>
    PyResult.ok ((deduplicate ((sub_queries.map
      (fun sq => (rerank P.predict sq (hybrid_search P sq 20)).take 5)).flatten)).take 10)

/-- Modelled from the spec: the `Citation` class is imported from
`core/citations.py`, which is not under src/. Fields follow §3 and the
keyword arguments of the constructor call in `analyze_risks`
(`source_type`, `ticker`, `year`, `section`, `url`); `section` and `url`
are nullable. -/
structure Citation where
  source_type : String
  ticker : String
  year : String
  section' : Option String
  url : Option String
deriving DecidableEq

/-- The citation construction of `analyze_risks`
(`agents/sec_researcher.py`): a pure function of the result's metadata
and the supplied source type, ticker and year; missing metadata keys
become `none` via `dict.get`. -/
def attach_citation (md : List (String × String))
    (source_type ticker year : String) : Citation :=
  { source_type := source_type, ticker := ticker, year := year,
    section' := md.lookup "section", url := md.lookup "source_url" }

/-! ### Helper lemmas: first-occurrence deduplication -/

theorem dedupAux_subset {seen : List (String × List (String × String))}
    {l : List RetrievalResult} : ∀ y ∈ dedupAux seen l, y ∈ l := by
  induction l generalizing seen with
  | nil => intro y hy; simp [dedupAux] at hy
  | cons r rs ih =>
    intro y hy
    simp only [dedupAux] at hy
    by_cases hmem : r.identity ∈ seen
    · simp only [if_pos hmem] at hy
      exact List.mem_cons_of_mem _ (ih y hy)
    · simp only [if_neg hmem, List.mem_cons] at hy
      rcases hy with h | h
      · exact h ▸ List.mem_cons_self _ _
      · exact List.mem_cons_of_mem _ (ih y h)

theorem dedupAux_not_seen {seen : List (String × List (String × String))}
    {l : List RetrievalResult} : ∀ y ∈ dedupAux seen l, y.identity ∉ seen := by
  induction l generalizing seen with
  | nil => intro y hy; simp [dedupAux] at hy
  | cons r rs ih =>
    intro y hy
    simp only [dedupAux] at hy
    by_cases hmem : r.identity ∈ seen
    · simp only [if_pos hmem] at hy
      exact ih y hy
    · simp only [if_neg hmem, List.mem_cons] at hy
      rcases hy with h | h
      · exact h ▸ hmem
      · have := ih y h
        intro hcon
        exact this (List.mem_cons_of_mem _ hcon)

theorem dedupAux_pairwise (seen : List (String × List (String × String)))
    (l : List RetrievalResult) :
    (dedupAux seen l).Pairwise (fun a b => a.identity ≠ b.identity) := by
  induction l generalizing seen with
  | nil => simp [dedupAux]
  | cons r rs ih =>
    simp only [dedupAux]
    by_cases hmem : r.identity ∈ seen
    · simpa [if_pos hmem] using ih seen
    · simp only [if_neg hmem]
      refine List.pairwise_cons.mpr ⟨?_, ih _⟩
      intro y hy
      have := dedupAux_not_seen y hy
      intro heq
      exact this (heq ▸ List.mem_cons_self _ _)

theorem dedupAux_length_le (seen : List (String × List (String × String)))
    (l : List RetrievalResult) : (dedupAux seen l).length ≤ l.length := by
  induction l generalizing seen with
  | nil => simp [dedupAux]
  | cons r rs ih =>
    simp only [dedupAux]
    by_cases hmem : r.identity ∈ seen
    · simp only [if_pos hmem]
      exact le_trans (ih seen) (Nat.le_succ _)
    · simp only [if_neg hmem, List.length_cons]
      exact Nat.succ_le_succ (ih _)

theorem dedupAux_eq_self {l : List RetrievalResult}
    {seen : List (String × List (String × String))}
    (hp : l.Pairwise (fun a b => a.identity ≠ b.identity))
    (hs : ∀ x ∈ l, x.identity ∉ seen) : dedupAux seen l = l := by
  induction l generalizing seen with
  | nil => simp [dedupAux]
  | cons r rs ih =>
    have hr : r.identity ∉ seen := hs r (List.mem_cons_self _ _)
    simp only [dedupAux, if_neg hr]
    congr 1
    rcases List.pairwise_cons.mp hp with ⟨hhead, htail⟩
    refine ih htail ?_
    intro x hx
    simp only [List.mem_cons]
    rintro (h | h)
    · exact hhead x hx h.symm
    · exact hs x (List.mem_cons_of_mem _ hx) h

theorem dedupAux_exists {l : List RetrievalResult}
    {seen : List (String × List (String × String))} {x : RetrievalResult}
    (hx : x ∈ l) (hs : x.identity ∉ seen) :
    ∃ y ∈ dedupAux seen l, y.identity = x.identity := by
  induction l generalizing seen with
  | nil => simp at hx
  | cons r rs ih =>
    simp only [dedupAux]
    rcases List.mem_cons.mp hx with h | h
    · subst h
      simp only [if_neg hs]
      exact ⟨x, List.mem_cons_self _ _, rfl⟩
    · by_cases hmem : r.identity ∈ seen
      · simp only [if_pos hmem]
        exact ih h hs
      · simp only [if_neg hmem]
        by_cases hid : x.identity = r.identity
        · exact ⟨r, List.mem_cons_self _ _, hid.symm⟩
        · have : x.identity ∉ r.identity :: seen := by
            simp only [List.mem_cons]
            rintro (h' | h')
            · exact hid h'
            · exact hs h'
          rcases ih h this with ⟨y, hy, hyid⟩
          exact ⟨y, List.mem_cons_of_mem _ hy, hyid⟩

/-! ### Helper lemmas: lengths and merge facts -/

theorem pySliceLast_length_le {α : Type} (l : List α) {k : Nat} (hk : 1 ≤ k) :
    (pySliceLast l k).length ≤ k := by
  unfold pySliceLast
  have hk0 : k ≠ 0 := Nat.one_le_iff_ne_zero.mp hk
  simp only [if_neg hk0, List.length_drop]
  omega

theorem argsort_length (s : List Rat) : (argsort s).length = s.length := by
  unfold argsort
  rw [List.length_insertionSort, List.length_range]

theorem sparsePassages_length_le (P : Pipeline) (q : String) {k : Nat} (hk : 1 ≤ k) :
    (sparsePassages P q k).length ≤ k := by
  unfold sparsePassages sparseTopKIndices
  rw [List.length_map, List.length_reverse]
  exact pySliceLast_length_le _ hk

theorem merge_results_length_le (dense sparse : List Passage) :
    (merge_results dense sparse).length ≤ dense.length + sparse.length := by
  unfold merge_results
  refine le_trans (dedupAux_length_le _ _) ?_
  rw [List.length_append, List.length_map, List.length_map]

theorem merge_results_pairwise (dense sparse : List Passage) :
    (merge_results dense sparse).Pairwise (fun a b => a.identity ≠ b.identity) :=
  dedupAux_pairwise _ _

/-- In the concatenated tagged candidate list, every entry whose identity
matches a passage occurring in both source lists carries the `hybrid`
tag. -/
theorem merge_combined_hybrid_tag {dense sparse : List Passage} {p : Passage}
    (hd : p ∈ dense) (hs : p ∈ sparse) :
    ∀ x ∈ (dense.map (fun p' =>
        passageToResult (if p' ∈ sparse then "hybrid" else "dense") p')) ++
      (sparse.map (fun p' =>
        passageToResult (if p' ∈ dense then "hybrid" else "sparse") p')),
      x.identity = (p.content, p.metadata) → x.source = "hybrid" := by
  intro x hx hid
  rcases List.mem_append.mp hx with h | h
  · rcases List.mem_map.mp h with ⟨p', hp', rfl⟩
    have : p' = p := by
      have h1 : p'.content = p.content := congrArg Prod.fst hid
      have h2 : p'.metadata = p.metadata := congrArg Prod.snd hid
      cases p'; cases p
      simp_all
    subst this
    simp [passageToResult, if_pos hs]
  · rcases List.mem_map.mp h with ⟨p', hp', rfl⟩
    have : p' = p := by
      have h1 : p'.content = p.content := congrArg Prod.fst hid
      have h2 : p'.metadata = p.metadata := congrArg Prod.snd hid
      cases p'; cases p
      simp_all
    subst this
    simp [passageToResult, if_pos hd]

/-- A passage in both candidate lists survives the merge as a single
`hybrid`-tagged entry. -/
theorem merge_results_hybrid {dense sparse : List Passage} {p : Passage}
    (hd : p ∈ dense) (hs : p ∈ sparse) :
    ∃ r ∈ merge_results dense sparse,
      r.content = p.content ∧ r.metadata = p.metadata ∧ r.source = "hybrid" := by
  have hx : passageToResult (if p ∈ sparse then "hybrid" else "dense") p ∈
      (dense.map (fun p' =>
        passageToResult (if p' ∈ sparse then "hybrid" else "dense") p')) ++
      (sparse.map (fun p' =>
        passageToResult (if p' ∈ dense then "hybrid" else "sparse") p')) :=
    List.mem_append.mpr (Or.inl (List.mem_map.mpr ⟨p, hd, rfl⟩))
  have hid : (passageToResult (if p ∈ sparse then "hybrid" else "dense") p).identity
      = (p.content, p.metadata) := rfl
  rcases dedupAux_exists hx (List.not_mem_nil _) with ⟨y, hy, hyid⟩
  refine ⟨y, hy, ?_, ?_, ?_⟩
  · exact congrArg Prod.fst (hyid.trans hid)
  · exact congrArg Prod.snd (hyid.trans hid)
  · exact merge_combined_hybrid_tag hd hs y (dedupAux_subset y hy) (hyid.trans hid)

/-! ### Helper lemmas: lookup -/

theorem lookup_eq_none_of_keys {β : Type} (key : String) :
    ∀ md : List (String × β), (∀ kv ∈ md, kv.1 ≠ key) → md.lookup key = none := by
  intro md
  induction md with
  | nil => intro _; rfl
  | cons kv es ih =>
    intro h
    have hk : kv.1 ≠ key := h kv (List.mem_cons_self _ _)
    have hbeq : (key == kv.1) = false := beq_eq_false_iff_ne.mpr (Ne.symm hk)
    cases kv with
    | mk k v =>
      simp only [List.lookup, hbeq]
      exact ih (fun kv' hkv' => h kv' (List.mem_cons_of_mem _ hkv'))

theorem passage_identity_inj {a b : Passage}
    (h : (a.content, a.metadata) = (b.content, b.metadata)) : a = b := by
  cases a; cases b
  simpa using h

theorem merge_results_nil_dense (sparse : List Passage)
    (hp : sparse.Pairwise (· ≠ ·)) :
    merge_results [] sparse = sparse.map (passageToResult "sparse") := by
  unfold merge_results
  simp only [List.map_nil, List.nil_append, List.not_mem_nil, if_neg, ite_false]
  refine dedupAux_eq_self ?_ (fun x _ => List.not_mem_nil _)
  refine List.pairwise_map.mpr ?_
  refine hp.imp ?_
  intro a b hab hid
  exact hab (passage_identity_inj hid)

theorem assignScores_map_identity (predict : String → String → Rat) (q : String)
    (results : List RetrievalResult) :
    (assignScores predict q results).map RetrievalResult.identity
      = results.map RetrievalResult.identity := by
  unfold assignScores
  rw [List.map_map]
  rfl

/-! ### Claim theorems -/

/-- C1: the claim states `decompose_query` always returns a non-empty
sequence of sub-queries, falling back to `[query]` when generation fails.
The source instead executes `return sub_queries` with `sub_queries` never
assigned (`core/rag_pipeline.py` line 43), so it raises `NameError` on
every input and never returns a sequence: the spec records the intended
fallback and calls this source defect out as a bug (§4.5, §9), so the code
is wrong and the claim right. -/
theorem C1_decompose_query_always_raises (q : String) :
    decompose_query q = PyResult.exn "NameError: name sub_queries is not defined" := rfl

/-- C2: `rerank` returns a permutation of its input (same multiset of
passage identities), sorted non-increasing by the newly assigned
cross-encoder score; every candidate's score field is overwritten with
the cross-encoder score of `(query, content)`, and equal-score ties
retain their pre-sort relative input order (every pairwise-tied sublist
of the score-assigned input survives as a sublist of the output). -/
theorem C2_rerank_perm_sorted_stable (predict : String → String → Rat) (q : String)
    (results : List RetrievalResult) (_hne : results ≠ []) :
    ((rerank predict q results).map RetrievalResult.identity).Perm
        (results.map RetrievalResult.identity)
    ∧ List.Sorted scoreGE (rerank predict q results)
    ∧ (∀ r ∈ rerank predict q results, r.score = predict q r.content)
    ∧ ∀ c : List RetrievalResult, c.Pairwise (fun a b => a.score = b.score) →
        c.Sublist (assignScores predict q results) →
        c.Sublist (rerank predict q results) := by
  refine ⟨?_, ?_, ?_, ?_⟩
  · have hperm := List.perm_insertionSort scoreGE (assignScores predict q results)
    have := hperm.map RetrievalResult.identity
    rw [assignScores_map_identity] at this
    exact this
  · exact List.sorted_insertionSort scoreGE _
  · intro r hr
    have hmem : r ∈ assignScores predict q results :=
      (List.mem_insertionSort scoreGE).mp hr
    rcases List.mem_map.mp hmem with ⟨x, _, rfl⟩
    rfl
  · intro c hc hsub
    refine List.sublist_insertionSort ?_ hsub
    exact hc.imp fun {a b} h => le_of_eq h.symm

/-- C2 witness: the theorem applied at a concrete two-candidate input. -/
theorem C2_witness :
    ([⟨"b", [], 0, "dense"⟩, ⟨"a", [], 7, "sparse"⟩] : List RetrievalResult) ≠ []
    ∧ List.Sorted scoreGE
        (rerank (fun _ c => if c = "a" then 2 else 1) "q"
          [⟨"b", [], 0, "dense"⟩, ⟨"a", [], 7, "sparse"⟩]) :=
  ⟨by decide,
    (C2_rerank_perm_sorted_stable (fun _ c => if c = "a" then 2 else 1) "q"
      [⟨"b", [], 0, "dense"⟩, ⟨"a", [], 7, "sparse"⟩] (by decide)).2.1⟩

/-- C3: for `k ≥ 1` and a dense oracle honouring its `k`-limit,
`hybrid_search` returns at most `2k` results, no two of which share a
passage identity, and a passage occurring in both the dense and the
sparse candidate lists survives as a single entry tagged `hybrid`. -/
theorem C3_hybrid_search_bounded_dedup (P : Pipeline) (q : String) (k : Nat)
    (hk : 1 ≤ k) (hdense : (P.similaritySearch q k).length ≤ k) :
    (hybrid_search P q k).length ≤ 2 * k
    ∧ (hybrid_search P q k).Pairwise (fun a b => a.identity ≠ b.identity)
    ∧ ∀ p ∈ P.similaritySearch q k, p ∈ sparsePassages P q k →
        ∃ r ∈ hybrid_search P q k,
          r.content = p.content ∧ r.metadata = p.metadata ∧ r.source = "hybrid" := by
  refine ⟨?_, merge_results_pairwise _ _, ?_⟩
  · have h1 := merge_results_length_le (P.similaritySearch q k) (sparsePassages P q k)
    have h2 := sparsePassages_length_le P q hk
    unfold hybrid_search
    omega
  · intro p hd hs
    exact merge_results_hybrid hd hs

/-- C3 witness: the theorem applied to a concrete pipeline in which the
passage `"a"` is returned by both sources. -/
theorem C3_witness :
    (1 ≤ 2 ∧ (Pipeline.mk [⟨"a", []⟩, ⟨"b", []⟩] (fun _ _ => [⟨"a", []⟩])
        (fun _ => [2, 1]) (fun _ _ => 0) (fun _ => none)).similaritySearch "q" 2
        = [⟨"a", []⟩])
    ∧ (hybrid_search (Pipeline.mk [⟨"a", []⟩, ⟨"b", []⟩] (fun _ _ => [⟨"a", []⟩])
        (fun _ => [2, 1]) (fun _ _ => 0) (fun _ => none)) "q" 2).length ≤ 2 * 2 :=
  ⟨⟨by decide, by decide⟩,
    (C3_hybrid_search_bounded_dedup
      (Pipeline.mk [⟨"a", []⟩, ⟨"b", []⟩] (fun _ _ => [⟨"a", []⟩])
        (fun _ => [2, 1]) (fun _ _ => 0) (fun _ => none)) "q" 2
      (by decide) (by decide)).1⟩

/-- C4: the claim states that in `retrieve` the global deduplication
retains, per passage identity, the occurrence with the higher re-rank
score. The source's `retrieve` begins with the defective
`decompose_query` (line 87 calls line 43), so it raises `NameError` on
every input and never produces the pooled result list the deduplication
step would act on: for every pipeline, query and strategy, `retrieve`
yields no successful result list at all, and the claimed deduplication
behaviour is unreachable in the program. -/
theorem C4_retrieve_never_reaches_dedup (P : Pipeline) (q s : String)
    (l : List RetrievalResult) : retrieve P q s ≠ PyResult.ok l := by
  simp [retrieve, decompose_query]

/-- C5: the claim states `retrieve` returns at most `k_final = 10`
results, ordered non-increasing by re-rank score. The source's
`retrieve` instead raises `NameError` via the defective
`decompose_query` on every input: it never returns a sequence, so it
never returns any capped, sorted sequence either. -/
theorem C5_retrieve_always_raises (P : Pipeline) (q s : String) :
    retrieve P q s = PyResult.exn "NameError: name sub_queries is not defined" := rfl

/-- C6 counterexample: with a corpus of six distinct passages, a dense
oracle returning one passage outside the sparse top-5 and a cross-encoder
preferring `"d0"`, the single year entry of `compare_across_years` has 6
results (the claim bounds it by 5) and differs from the result of an
additional `rerank` pass over the same candidates (the claim asserts a
`hybrid_search` plus `rerank` pass; the source never calls `rerank`
here). -/
theorem C6_compare_counterexample :
    ((compare_across_years (Pipeline.mk
        [⟨"d0", []⟩, ⟨"d1", []⟩, ⟨"d2", []⟩, ⟨"d3", []⟩, ⟨"d4", []⟩, ⟨"d5", []⟩]
        (fun _ _ => [⟨"d5", []⟩]) (fun _ => [6, 5, 4, 3, 2, 1])
        (fun _ c => if c = "d0" then 1 else 0) (fun _ => none)) "q" ["2021"]).map
      (fun pr => pr.2.length) = [6])
    ∧ compare_across_years (Pipeline.mk
        [⟨"d0", []⟩, ⟨"d1", []⟩, ⟨"d2", []⟩, ⟨"d3", []⟩, ⟨"d4", []⟩, ⟨"d5", []⟩]
        (fun _ _ => [⟨"d5", []⟩]) (fun _ => [6, 5, 4, 3, 2, 1])
        (fun _ c => if c = "d0" then 1 else 0) (fun _ => none)) "q" ["2021"]
      ≠ [("2021", rerank
          (fun _ c => if c = "d0" then (1 : Rat) else 0) "q (year: 2021)"
          (hybrid_search (Pipeline.mk
            [⟨"d0", []⟩, ⟨"d1", []⟩, ⟨"d2", []⟩, ⟨"d3", []⟩, ⟨"d4", []⟩, ⟨"d5", []⟩]
            (fun _ _ => [⟨"d5", []⟩]) (fun _ => [6, 5, 4, 3, 2, 1])
            (fun _ c => if c = "d0" then 1 else 0) (fun _ => none)) "q (year: 2021)" 5))] := by
  decide

/-- C6 amended: `compare_across_years` returns exactly one entry per
supplied axis value, in input order (an axis value with no qualifying
passages maps to the empty sequence, not an omitted key); each entry is
produced by an independent `hybrid_search` pass over the axis-qualified
query with `k = 5` and no re-ranking, so it holds at most `2k = 10`
results (not 5) when the dense oracle honours its `k`-limit. -/
theorem C6_compare_across_years_amended (P : Pipeline) (q : String)
    (years : List String)
    (hdense : ∀ y : String,
      (P.similaritySearch (q ++ " (year: " ++ y ++ ")") 5).length ≤ 5) :
    (compare_across_years P q years).map Prod.fst = years
    ∧ ∀ pr ∈ compare_across_years P q years,
        pr.2 = hybrid_search P (q ++ " (year: " ++ pr.1 ++ ")") 5
        ∧ pr.2.length ≤ 10 := by
  constructor
  · unfold compare_across_years
    rw [List.map_map]
    exact List.map_id _
  · intro pr hpr
    rcases List.mem_map.mp hpr with ⟨y, _, rfl⟩
    refine ⟨rfl, ?_⟩
    have h1 := merge_results_length_le (P.similaritySearch (q ++ " (year: " ++ y ++ ")") 5)
      (sparsePassages P (q ++ " (year: " ++ y ++ ")") 5)
    have h2 := sparsePassages_length_le P (q ++ " (year: " ++ y ++ ")") (k := 5) (by omega)
    have h3 := hdense y
    simp only [hybrid_search] at *
    omega

/-- C6 witness: the amended theorem applied at a concrete pipeline and a
single year. -/
theorem C6_witness :
    (compare_across_years (Pipeline.mk [⟨"a", []⟩] (fun _ _ => [])
      (fun _ => [1]) (fun _ _ => 0) (fun _ => none)) "q" ["2021", "2022"]).map
      Prod.fst = ["2021", "2022"] :=
  (C6_compare_across_years_amended (Pipeline.mk [⟨"a", []⟩] (fun _ _ => [])
    (fun _ => [1]) (fun _ _ => 0) (fun _ => none)) "q" ["2021", "2022"]
    (fun _ => by simp)).1

/-- C7 counterexample: the claim says sparse top-k selection breaks
equal-score ties by original corpus order, smaller index first; the
source computes `np.argsort(scores)[-k:][::-1]`, which on two passages of
equal score ranks the larger corpus index first. -/
theorem C7_sparse_tie_counterexample :
    sparseTopKIndices [1, 1] 2 = [1, 0] ∧ sparseTopKIndices [1, 1] 2 ≠ [0, 1] := by
  decide

/-- C7 amended: with identical inputs and deterministic oracles, two
runs of `retrieve` yield the identical outcome (the embedding is a pure
function of the pipeline and the query, mirroring the source's freedom
from hidden state); but the sparse top-k selection does not rank smaller
corpus indices first among equal scores: on a two-passage corpus with
tied scores — where numpy's argsort is in its stable insertion-sort
regime, so the model is exact — the larger corpus index is ranked first.
Beyond determinism, no particular tie order is asserted for larger
corpora, where numpy's default argsort is not documented stable. -/
theorem C7_retrieve_deterministic (P : Pipeline) (q s : String) :
    retrieve P q s = retrieve P q s ∧ sparseTopKIndices [1, 1] 2 = [1, 0] :=
  ⟨rfl, by decide⟩

/-- C8: if the dense index returns zero results, `hybrid_search` returns
exactly the sparse candidates (when they are pairwise distinct), each
tagged `sparse`; and if additionally the corpus is empty (so the lexical
side scores nothing and selects nothing), `hybrid_search` returns the
empty sequence rather than failing. -/
theorem C8_hybrid_search_empty_sources (P : Pipeline) (q : String) (k : Nat)
    (hdense : P.similaritySearch q k = []) :
    ((sparsePassages P q k).Pairwise (· ≠ ·) →
      hybrid_search P q k = (sparsePassages P q k).map (passageToResult "sparse"))
    ∧ (P.documents = [] → P.bm25Scores q = [] → hybrid_search P q k = []) := by
  constructor
  · intro hp
    unfold hybrid_search
    rw [hdense]
    exact merge_results_nil_dense _ hp
  · intro hdocs hscores
    unfold hybrid_search
    rw [hdense]
    have hsp : sparsePassages P q k = [] := by
      unfold sparsePassages sparseTopKIndices pySliceLast
      rw [hscores]
      unfold argsort
      simp
    rw [hsp]
    rfl

/-- C8 witness: the theorem applied to a pipeline whose dense oracle is
empty and whose two-passage corpus is fully returned by the sparse side,
and to a pipeline with an empty corpus. -/
theorem C8_witness :
    hybrid_search (Pipeline.mk [⟨"a", []⟩, ⟨"b", []⟩] (fun _ _ => [])
        (fun _ => [2, 1]) (fun _ _ => 0) (fun _ => none)) "q" 2
      = (sparsePassages (Pipeline.mk [⟨"a", []⟩, ⟨"b", []⟩] (fun _ _ => [])
          (fun _ => [2, 1]) (fun _ _ => 0) (fun _ => none)) "q" 2).map
        (passageToResult "sparse")
    ∧ hybrid_search (Pipeline.mk [] (fun _ _ => []) (fun _ => [])
        (fun _ _ => 0) (fun _ => none)) "q" 20 = [] :=
  ⟨(C8_hybrid_search_empty_sources (Pipeline.mk [⟨"a", []⟩, ⟨"b", []⟩]
      (fun _ _ => []) (fun _ => [2, 1]) (fun _ _ => 0) (fun _ => none)) "q" 2
      (by decide)).1 (by decide),
   (C8_hybrid_search_empty_sources (Pipeline.mk [] (fun _ _ => [])
      (fun _ => []) (fun _ _ => 0) (fun _ => none)) "q" 20
      (by decide)).2 (by decide) (by decide)⟩

/-- C9: citation attachment is a pure, total function of the result's
metadata and the supplied source type, ticker and year: a metadata
mapping lacking the `section` key yields a `none` section, one lacking
the `source_url` key yields a `none` url, and in all cases the `Citation`
value is constructed (no error) from exactly those inputs. -/
theorem C9_attach_citation_total (md : List (String × String))
    (st tk yr : String) :
    ((∀ kv ∈ md, kv.1 ≠ "section") → (attach_citation md st tk yr).section' = none)
    ∧ ((∀ kv ∈ md, kv.1 ≠ "source_url") → (attach_citation md st tk yr).url = none)
    ∧ attach_citation md st tk yr =
        { source_type := st, ticker := tk, year := yr,
          section' := md.lookup "section", url := md.lookup "source_url" } := by
  refine ⟨?_, ?_, rfl⟩
  · intro h
    show md.lookup "section" = none
    exact lookup_eq_none_of_keys _ md h
  · intro h
    show md.lookup "source_url" = none
    exact lookup_eq_none_of_keys _ md h

/-- C9 witness: the theorem applied to a metadata mapping that lacks both
optional keys. -/
theorem C9_witness :
    (attach_citation [("year", "2021")] "10-K" "NVDA" "2021").section' = none
    ∧ (attach_citation [("year", "2021")] "10-K" "NVDA" "2021").url = none :=
  ⟨(C9_attach_citation_total [("year", "2021")] "10-K" "NVDA" "2021").1 (by decide),
   (C9_attach_citation_total [("year", "2021")] "10-K" "NVDA" "2021").2.1 (by decide)⟩

/-- C10: the `strategy` argument of `retrieve` is accepted but never
read, so any two strategy strings (including unsupported ones) produce
identical results: an unsupported strategy is silently treated like
`"hybrid"` rather than rejected. -/
theorem C10_retrieve_strategy_irrelevant (P : Pipeline) (q s1 s2 : String) :
    retrieve P q s1 = retrieve P q s2 := rfl
